import Mathlib

/-!
Verification development for `agl_frame_extractor` (src/agl_frame_extractor/extractor.py).

The Python class `VideoFrameExtractor` is embedded shallowly:
its configuration (`self.input_folder`, `self.output_folder`,
`self.use_multithreading`, `self.image_format`) becomes explicit arguments,
the filesystem becomes an explicit association-list state, and each method
becomes a Lean function threading that state.  Side effects that matter to
the specification (directory creation, ffmpeg invocations, capture
open/release, metadata and frame writes) are recorded in an event trace.
`logging`, `tqdm` and `icecream` calls are pure observers and are omitted.

External collaborators are modelled from their documented semantics:
  * `cv2.VideoCapture`: opening a decodable video yields a capture whose
    `get(CAP_PROP_FRAME_COUNT)` / `get(CAP_PROP_FPS)` return the container
    attributes and whose `get(CAP_PROP_POS_MSEC)` returns the current stream
    position in milliseconds (0 right after opening, before any read);
    opening anything else yields an unopened capture whose `get` returns 0
    and whose `read` immediately reports failure.
  * `cv2.imwrite` / `open(..., "w")`: a write to a path on the filesystem's
    failure set (e.g. disk full) raises `OSError` (resp. `cv2.error`);
    otherwise the file is (over)written.
  * `subprocess.run([ffmpeg ...], check=True)`: re-encodes the source video,
    preserving its decodable frames and container attributes, writing the
    output path; a non-decodable source or failing output write makes the
    encoder exit non-zero, which `check=True` turns into a raised
    `CalledProcessError`.
-/

namespace AglFrameExtractor

/-- One decoded raster frame; the pixel payload is abstracted to a tag. -/
structure Frame where
  tag : Nat
deriving DecidableEq

/-- A video file's content: its decodable frames in decode order together
with the container-level attributes a capture reports.  `reportedFrames`
is `CAP_PROP_FRAME_COUNT` (the container's count, possibly an estimate),
`fps` is `CAP_PROP_FPS`.  `durationMs` is the video's real duration; note
that no code path of the extractor ever reads it (the `"duration"` metadata
field is read from `CAP_PROP_POS_MSEC`, the stream position). -/
structure Video where
  frames : List Frame
  reportedFrames : Int
  fps : Int
  durationMs : Int
deriving DecidableEq

/-- Parsed JSON object content of a metadata sidecar file; each field may be
absent (`json.load` succeeded but the key is missing). -/
structure MetaJson where
  total_frames : Option Int
  fps : Option Int
  duration : Option Int
deriving DecidableEq

/-- Content of a regular file, as far as the extractor can observe it. -/
inductive FileData where
  /-- an image file holding one encoded frame -/
  | image (f : Frame)
  /-- a file whose bytes parse as a JSON object -/
  | metaJson (m : MetaJson)
  /-- a decodable video file -/
  | video (v : Video)
  /-- bytes that neither parse as JSON nor decode as video -/
  | corrupt
deriving DecidableEq

/-- A filesystem entry: a directory or a regular file. -/
inductive Node where
  | dir
  | file (d : FileData)
deriving DecidableEq

/-- The filesystem: full path ↦ entry, plus the set of paths on which file
I/O currently fails (raising `OSError` on read or write). -/
structure FS where
  entries : List (String × Node)
  failPaths : List String
deriving DecidableEq

def FS.lookup (fs : FS) (p : String) : Option Node :=
  (fs.entries.find? (fun e => e.1 == p)).map (fun e => e.2)

/-- `os.path.exists` -/
def FS.pathExists (fs : FS) (p : String) : Bool :=
  (fs.lookup p).isSome

/-- `Path.is_dir` -/
def FS.isDir (fs : FS) (p : String) : Bool :=
  match fs.lookup p with
  | some Node.dir => true
  | _ => false

/-- `Path.is_file` -/
def FS.isFile (fs : FS) (p : String) : Bool :=
  match fs.lookup p with
  | some (Node.file _) => true
  | _ => false

/-- Install an entry at a path, replacing any previous entry there. -/
def FS.setEntry (fs : FS) (p : String) (n : Node) : FS :=
  { fs with entries := (p, n) :: fs.entries.filter (fun e => e.1 != p) }

/-- `os.makedirs` -/
def FS.mkdir (fs : FS) (p : String) : FS := fs.setEntry p Node.dir

/-- Writing a regular file (`open(..., "w")` + dump, or `cv2.imwrite`). -/
def FS.writeFile (fs : FS) (p : String) (d : FileData) : FS :=
  fs.setEntry p (Node.file d)

/-- Split a character list at every occurrence of `c` (as Python's
`str.split(c)`).  Implemented by structural recursion so that proofs can
evaluate it; the result list is never empty. -/
def splitOnChar (c : Char) : List Char → List (List Char)
  | [] => [[]]
  | a :: rest =>
      match splitOnChar c rest with
      | [] => [[a]]
      | g :: gs => if a == c then [] :: g :: gs else (a :: g) :: gs

/-- Join character groups, placing `c` between adjacent groups. -/
def intercalateChar (c : Char) : List (List Char) → List Char
  | [] => []
  | [g] => g
  | g :: gs => g ++ c :: intercalateChar c gs

/-- `s` ends with `t` (as `str.endswith`). -/
def strEndsWith (s t : String) : Bool := List.isSuffixOf t.data s.data

/-- `str.lower()`. -/
def strToLower (s : String) : String := String.mk (s.data.map Char.toLower)

/-- `os.path.isabs` -/
def isAbs (p : String) : Bool :=
  match p.data with
  | c :: _ => c == '/'
  | [] => false

/-- `os.path.join` for the two-argument uses in the extractor. -/
def joinPath (a b : String) : String := if isAbs b then b else a ++ "/" ++ b

/-- `os.path.basename` / `pathlib.Path(...).name`: the component after the
last slash. -/
def basename (p : String) : String :=
  String.mk ((splitOnChar '/' p.data).getLastD p.data)

/-- `os.path.splitext(name)[0]`: the part of a file name before its last
dot (names without a dot are returned whole). -/
def splitextBase (name : String) : String :=
  let parts := splitOnChar '.' name.data
  if parts.length ≤ 1 then name
  else String.mk (intercalateChar '.' parts.dropLast)

/-- `p` names an entry directly inside directory `dir`. -/
def isDirectChild (dir p : String) : Bool :=
  List.isPrefixOf (dir.data ++ ['/']) p.data &&
  !(List.elem '/' (p.data.drop (dir.data.length + 1)))

/-- `len(list(frames_dir.glob(f"*.{fmt}")))`: the number of entries directly
in `dir` whose name ends in `"." ++ fmt`. -/
def FS.globCount (fs : FS) (dir fmt : String) : Nat :=
  (fs.entries.filter (fun e =>
    isDirectChild dir e.1 && strEndsWith e.1 ("." ++ fmt))).length

/-- `os.listdir`: names of the entries directly inside `dir`. -/
def listdir (fs : FS) (dir : String) : List String :=
  (fs.entries.filter (fun e => isDirectChild dir e.1)).map
    (fun e => String.mk (e.1.data.drop (dir.data.length + 1)))

/-- Observable side effects, in program order. -/
inductive Event where
  | madeDir (path : String)
  | ffmpegInvoked (src dst : String)
  | openCapture (path : String)
  | releaseCapture (path : String)
  | wroteMetadata (path : String) (m : MetaJson)
  | wroteFrame (path : String) (idx : Nat)
deriving DecidableEq

/-- Python exceptions the embedded code can raise. -/
inductive Err where
  /-- `subprocess.CalledProcessError` from `subprocess.run(..., check=True)` -/
  | calledProcessError
  /-- filesystem failure while writing the named path -/
  | osError (path : String)
deriving DecidableEq

deriving instance DecidableEq for Except

/-- Program state threaded through the methods: the filesystem and the
trace of observable events so far. -/
structure S where
  fs : FS
  events : List Event
deriving DecidableEq

/-- The configuration stored by `VideoFrameExtractor.__init__`. -/
structure Cfg where
  input_folder : String
  output_folder : String
  use_multithreading : Bool
  image_format : String
deriving DecidableEq

/-- A `cv2.VideoCapture` handle: whether it opened, the container attributes
it reports, the current stream position in ms, and the frames left to read. -/
structure Capture where
  opened : Bool
  reportedFrames : Int
  fps : Int
  posMsec : Int
  toRead : List Frame
deriving DecidableEq

/-- `cv2.VideoCapture(path)`: a decodable video yields an opened capture at
position 0; anything else yields an unopened capture reporting 0 for every
property and failing every read. -/
def VideoCapture (fs : FS) (path : String) : Capture :=
  match fs.lookup path with
  | some (Node.file (FileData.video v)) =>
      { opened := true, reportedFrames := v.reportedFrames, fps := v.fps,
        posMsec := 0, toRead := v.frames }
  | _ =>
      { opened := false, reportedFrames := 0, fps := 0, posMsec := 0, toRead := [] }

/-- The derived transcoded output path of `transcode_video`:
`output_folder/<base>_transcoded.mp4` where `base` strips the extension of
the source's file name. -/
def transcodedPath (output_folder mov_file : String) : String :=
  joinPath output_folder (splitextBase (basename mov_file) ++ "_transcoded.mp4")

/-- `VideoFrameExtractor.transcode_video`: if the derived output path exists
it is returned unchanged; otherwise ffmpeg is invoked (with `check=True`) to
re-encode the source there, raising `CalledProcessError` on non-zero exit. -/
def transcode_video (output_folder mov_file : String) (s : S) :
    S × Except Err String :=
  let transcoded_path := transcodedPath output_folder mov_file
  if s.fs.pathExists transcoded_path then (s, Except.ok transcoded_path)
  else
    match s.fs.lookup mov_file with
    | some (Node.file (FileData.video v)) =>
        if s.fs.failPaths.contains transcoded_path then
          ({ fs := s.fs,
             events := s.events ++ [Event.ffmpegInvoked mov_file transcoded_path] },
           Except.error Err.calledProcessError)
        else
          ({ fs := s.fs.writeFile transcoded_path (FileData.video v),
             events := s.events ++ [Event.ffmpegInvoked mov_file transcoded_path] },
           Except.ok transcoded_path)
    | _ =>
        ({ fs := s.fs,
           events := s.events ++ [Event.ffmpegInvoked mov_file transcoded_path] },
         Except.error Err.calledProcessError)

/-- `VideoFrameExtractor.frames_already_extracted`: false when the frames
directory or metadata file is absent; otherwise compares the glob count of
`*.image_format` entries against `metadata.get("total_frames", 0)`, with
`json.JSONDecodeError` / `KeyError` / `OSError` caught and answered false. -/
def frames_already_extracted (output_folder image_format : String) (fs : FS)
    (video_path : String) : Bool :=
  let video_name := basename video_path
  let frames_dir := joinPath output_folder (video_name ++ "_frames")
  let metadata_file := joinPath output_folder (video_name ++ "_metadata.json")
  if !(fs.isDir frames_dir) || !(fs.isFile metadata_file) then false
  else if fs.failPaths.contains metadata_file then false
  else
    match fs.lookup metadata_file with
    | some (Node.file (FileData.metaJson m)) =>
        (Int.ofNat (fs.globCount frames_dir image_format)) == m.total_frames.getD 0
    | _ => false

/-- Whether an `FS.lookup` result is a decodable video file. -/
def isVideoFile : Option Node → Bool
  | some (Node.file (FileData.video _)) => true
  | _ => false

/-- The frame image path `frames_folder/frame_<n>.<image_format>`. -/
def frameFile (frames_folder image_format : String) (n : Nat) : String :=
  joinPath frames_folder ("frame_" ++ toString n ++ "." ++ image_format)

/-- The `while True: ret, frame = cap.read(); ...` loop of `process_video`:
reads frames until `read` fails, writing each at `frame_<n>` and
incrementing `frame_number`; a failing frame write raises out of the loop. -/
def frameLoop (image_format frames_folder : String) (toRead : List Frame)
    (frame_number : Nat) (s : S) : S × Except Err Unit :=
  match toRead with
  | [] => (s, Except.ok ())
  | f :: rest =>
      let frame_file := frameFile frames_folder image_format frame_number
      if s.fs.failPaths.contains frame_file then
        (s, Except.error (Err.osError frame_file))
      else
        frameLoop image_format frames_folder rest (frame_number + 1)
          { fs := s.fs.writeFile frame_file (FileData.image f),
            events := s.events ++ [Event.wroteFrame frame_file frame_number] }

/-- `VideoFrameExtractor.process_video`: resolve the path, return early if
already extracted, open the capture, create the frames folder, write the
metadata sidecar once, run the frame loop, and release the capture.  Note
the release only happens when the loop ends normally: a raised write error
propagates past `cap.release()` (there is no try/finally in the source). -/
def process_video (input_folder output_folder image_format : String)
    (mov_file : String) (s : S) : S × Except Err Unit :=
  let video_path := if isAbs mov_file then mov_file else joinPath input_folder mov_file
  if frames_already_extracted output_folder image_format s.fs video_path then
    (s, Except.ok ())
  else
    let cap := VideoCapture s.fs video_path
    let s := { s with events := s.events ++ [Event.openCapture video_path] }
    let mov_file_name := basename mov_file
    let frames_folder := joinPath output_folder (mov_file_name ++ "_frames")
    let s :=
      if s.fs.pathExists frames_folder then s
      else { fs := s.fs.mkdir frames_folder,
             events := s.events ++ [Event.madeDir frames_folder] }
    let metadata : MetaJson :=
      { total_frames := some cap.reportedFrames, fps := some cap.fps,
        duration := some cap.posMsec }
    let metadata_file := joinPath output_folder (mov_file_name ++ "_metadata.json")
    if s.fs.failPaths.contains metadata_file then
      (s, Except.error (Err.osError metadata_file))
    else
      let s := { fs := s.fs.writeFile metadata_file (FileData.metaJson metadata),
                 events := s.events ++ [Event.wroteMetadata metadata_file metadata] }
      match frameLoop image_format frames_folder cap.toRead 0 s with
      | (s, Except.ok _) =>
          ({ s with events := s.events ++ [Event.releaseCapture video_path] },
           Except.ok ())
      | (s, Except.error e) => (s, Except.error e)

/-- The `os.listdir` + suffix filter of `extract_frames_and_metadata`:
entries of the input folder whose lowercased name ends in ".mov"/".mp4". -/
def listVideoFiles (fs : FS) (input_folder : String) : List String :=
  (listdir fs input_folder).filter (fun f =>
    strEndsWith (strToLower f) ".mov" || strEndsWith (strToLower f) ".mp4")

/-- The `if not os.path.exists(self.output_folder): os.makedirs(...)` step. -/
def ensureOutputFolder (output_folder : String) (s : S) : S :=
  if s.fs.pathExists output_folder then s
  else { fs := s.fs.mkdir output_folder,
         events := s.events ++ [Event.madeDir output_folder] }

/-- The first loop of `extract_frames_and_metadata`: transcode every listed
video, collecting the returned paths; a raised error aborts the loop. -/
def transcodeAll (output_folder input_folder : String) (files : List String)
    (s : S) : S × Except Err (List String) :=
  match files with
  | [] => (s, Except.ok [])
  | f :: rest =>
      let input_path := joinPath input_folder f
      match transcode_video output_folder input_path s with
      | (s, Except.error e) => (s, Except.error e)
      | (s, Except.ok p) =>
          match transcodeAll output_folder input_folder rest s with
          | (s, Except.error e) => (s, Except.error e)
          | (s, Except.ok ps) => (s, Except.ok (p :: ps))

/-- The second loop of `extract_frames_and_metadata`: process each collected
path in order; a raised error aborts the loop. -/
def processAll (input_folder output_folder image_format : String)
    (futures : List String) (s : S) : S × Except Err Unit :=
  match futures with
  | [] => (s, Except.ok ())
  | p :: rest =>
      match process_video input_folder output_folder image_format p s with
      | (s, Except.ok _) => processAll input_folder output_folder image_format rest s
      | (s, Except.error e) => (s, Except.error e)

/-- `VideoFrameExtractor.extract_frames_and_metadata`: ensure the output
folder, list the video files, transcode them all, then process each
transcoded path.  The stored `use_multithreading` flag is never consulted. -/
def extract_frames_and_metadata (cfg : Cfg) (s : S) : S × Except Err Unit :=
  let s := ensureOutputFolder cfg.output_folder s
  let video_files := listVideoFiles s.fs cfg.input_folder
  match transcodeAll cfg.output_folder cfg.input_folder video_files s with
  | (s, Except.error e) => (s, Except.error e)
  | (s, Except.ok futures) =>
      processAll cfg.input_folder cfg.output_folder cfg.image_format futures s

/-- The frame-write events of a trace, in order: (path, ordinal index). -/
def frameWrites (es : List Event) : List (String × Nat) :=
  es.filterMap (fun e => match e with
    | Event.wroteFrame p i => some (p, i)
    | _ => none)

/-- Whether an event is a metadata write. -/
def isMetaWrite : Event → Bool := fun e =>
  match e with
  | Event.wroteMetadata _ _ => true
  | _ => false

/-- The metadata-write events of a trace, in order. -/
def metaWrites (es : List Event) : List (String × MetaJson) :=
  es.filterMap (fun e => match e with
    | Event.wroteMetadata p m => some (p, m)
    | _ => none)

/-- How many times the external ffmpeg process was invoked in a trace. -/
def ffmpegRuns (es : List Event) : Nat :=
  (es.filter (fun e => match e with
    | Event.ffmpegInvoked _ _ => true
    | _ => false)).length

/-! ### Helper lemmas -/

@[simp]
theorem FS.failPaths_writeFile (fs : FS) (p : String) (d : FileData) :
    (fs.writeFile p d).failPaths = fs.failPaths := rfl

@[simp]
theorem FS.failPaths_mkdir (fs : FS) (p : String) :
    (fs.mkdir p).failPaths = fs.failPaths := rfl

@[simp]
theorem FS.lookup_setEntry_self (fs : FS) (p : String) (n : Node) :
    (fs.setEntry p n).lookup p = some n := by
  simp [FS.setEntry, FS.lookup, List.find?]

@[simp]
theorem FS.pathExists_writeFile_self (fs : FS) (p : String) (d : FileData) :
    (fs.writeFile p d).pathExists p = true := by
  simp [FS.writeFile, FS.pathExists]

@[simp]
theorem FS.lookup_writeFile_self (fs : FS) (p : String) (d : FileData) :
    (fs.writeFile p d).lookup p = some (Node.file d) := by
  simp [FS.writeFile]

@[simp]
theorem frameWrites_append (es₁ es₂ : List Event) :
    frameWrites (es₁ ++ es₂) = frameWrites es₁ ++ frameWrites es₂ := by
  simp [frameWrites]

@[simp]
theorem metaWrites_append (es₁ es₂ : List Event) :
    metaWrites (es₁ ++ es₂) = metaWrites es₁ ++ metaWrites es₂ := by
  simp [metaWrites]

@[simp]
theorem frameWrites_nil : frameWrites [] = [] := rfl

@[simp]
theorem frameWrites_cons_madeDir (p : String) (es : List Event) :
    frameWrites (Event.madeDir p :: es) = frameWrites es := rfl

@[simp]
theorem frameWrites_cons_ffmpeg (a b : String) (es : List Event) :
    frameWrites (Event.ffmpegInvoked a b :: es) = frameWrites es := rfl

@[simp]
theorem frameWrites_cons_open (p : String) (es : List Event) :
    frameWrites (Event.openCapture p :: es) = frameWrites es := rfl

@[simp]
theorem frameWrites_cons_release (p : String) (es : List Event) :
    frameWrites (Event.releaseCapture p :: es) = frameWrites es := rfl

@[simp]
theorem frameWrites_cons_meta (p : String) (m : MetaJson) (es : List Event) :
    frameWrites (Event.wroteMetadata p m :: es) = frameWrites es := rfl

@[simp]
theorem frameWrites_cons_frame (p : String) (n : Nat) (es : List Event) :
    frameWrites (Event.wroteFrame p n :: es) = (p, n) :: frameWrites es := rfl

@[simp]
theorem metaWrites_nil : metaWrites [] = [] := rfl

@[simp]
theorem metaWrites_cons_madeDir (p : String) (es : List Event) :
    metaWrites (Event.madeDir p :: es) = metaWrites es := rfl

@[simp]
theorem metaWrites_cons_ffmpeg (a b : String) (es : List Event) :
    metaWrites (Event.ffmpegInvoked a b :: es) = metaWrites es := rfl

@[simp]
theorem metaWrites_cons_open (p : String) (es : List Event) :
    metaWrites (Event.openCapture p :: es) = metaWrites es := rfl

@[simp]
theorem metaWrites_cons_release (p : String) (es : List Event) :
    metaWrites (Event.releaseCapture p :: es) = metaWrites es := rfl

@[simp]
theorem metaWrites_cons_frame (p : String) (n : Nat) (es : List Event) :
    metaWrites (Event.wroteFrame p n :: es) = metaWrites es := rfl

@[simp]
theorem metaWrites_cons_meta (p : String) (m : MetaJson) (es : List Event) :
    metaWrites (Event.wroteMetadata p m :: es) = (p, m) :: metaWrites es := rfl

/-- The frame-write events the loop appends when started at index `n` on
the given frame list, in the all-writes-succeed case. -/
def frameEvents (image_format frames_folder : String) (n : Nat) :
    List Frame → List Event
  | [] => []
  | _ :: rest =>
      Event.wroteFrame (frameFile frames_folder image_format n) n ::
        frameEvents image_format frames_folder (n + 1) rest

theorem frameEvents_eq (image_format frames_folder : String) (l : List Frame) :
    ∀ n : Nat,
      frameEvents image_format frames_folder n l =
        (List.range l.length).map (fun j =>
          Event.wroteFrame (frameFile frames_folder image_format (n + j)) (n + j)) := by
  induction l with
  | nil => intro n; simp [frameEvents]
  | cons f rest ih =>
      intro n
      rw [frameEvents, ih (n + 1), List.length_cons, List.range_succ_eq_map]
      simp only [List.map_cons, Nat.add_zero, List.map_map]
      refine congrArg (List.cons _) (List.map_congr_left ?_)
      intro j hj
      have h : n + 1 + j = n + (j + 1) := by omega
      simp [Function.comp, h]

@[simp]
theorem frameWrites_frameEvents (image_format frames_folder : String)
    (l : List Frame) : ∀ n : Nat,
    frameWrites (frameEvents image_format frames_folder n l) =
      (List.range l.length).map (fun j =>
        (frameFile frames_folder image_format (n + j), n + j)) := by
  induction l with
  | nil => intro n; simp [frameEvents, frameWrites]
  | cons f rest ih =>
      intro n
      rw [frameEvents, List.length_cons, List.range_succ_eq_map]
      simp only [frameWrites, List.filterMap_cons] at ih ⊢
      rw [ih (n + 1)]
      simp only [List.map_cons, Nat.add_zero, List.map_map]
      refine congrArg (List.cons _) (List.map_congr_left ?_)
      intro j hj
      have h : n + 1 + j = n + (j + 1) := by omega
      simp [Function.comp, h]

@[simp]
theorem metaWrites_frameEvents (image_format frames_folder : String)
    (l : List Frame) : ∀ n : Nat,
    metaWrites (frameEvents image_format frames_folder n l) = [] := by
  induction l with
  | nil => intro n; simp [frameEvents, metaWrites]
  | cons f rest ih =>
      intro n
      rw [frameEvents]
      simp only [metaWrites, List.filterMap_cons] at ih ⊢
      exact ih (n + 1)

/-- Success-path description of the frame loop: with no failing paths every
frame is written, in order, and the loop returns cleanly having appended
exactly the `frameEvents`. -/
theorem frameLoop_ok (image_format frames_folder : String) (l : List Frame) :
    ∀ (n : Nat) (s : S), s.fs.failPaths = [] →
      (frameLoop image_format frames_folder l n s).2 = Except.ok () ∧
      (frameLoop image_format frames_folder l n s).1.events =
        s.events ++ frameEvents image_format frames_folder n l ∧
      (frameLoop image_format frames_folder l n s).1.fs.failPaths = [] := by
  induction l with
  | nil => intro n s h; simp [frameLoop, frameEvents, h]
  | cons f rest ih =>
      intro n s h
      rw [frameLoop]
      simp only [h, List.contains_nil, Bool.false_eq_true, if_false]
      obtain ⟨h1, h2, h3⟩ := ih (n + 1)
        { fs := s.fs.writeFile (frameFile frames_folder image_format n) (FileData.image f),
          events := s.events ++ [Event.wroteFrame (frameFile frames_folder image_format n) n] }
        (by simpa using h)
      refine ⟨h1, ?_, h3⟩
      rw [h2]
      simp [frameEvents, List.append_assoc]

/-- Success-path description of `process_video` on an absolute path that is
not yet extracted, when no path fails I/O: the run succeeds and appends — in
this order — the capture open, the frames-folder creation (when needed), the
single metadata write (taking `total_frames` and `fps` from the capture and
`duration` from the capture's position), every frame write in decode order,
and the capture release. -/
theorem process_video_run (i o fmt p : String) (s : S)
    (habs : isAbs p = true)
    (hnotdone : frames_already_extracted o fmt s.fs p = false)
    (hnofail : s.fs.failPaths = []) :
    (process_video i o fmt p s).2 = Except.ok () ∧
    (process_video i o fmt p s).1.events =
      s.events ++ [Event.openCapture p] ++
        (if s.fs.pathExists (joinPath o (basename p ++ "_frames")) then []
         else [Event.madeDir (joinPath o (basename p ++ "_frames"))]) ++
        [Event.wroteMetadata (joinPath o (basename p ++ "_metadata.json"))
          { total_frames := some (VideoCapture s.fs p).reportedFrames,
            fps := some (VideoCapture s.fs p).fps,
            duration := some (VideoCapture s.fs p).posMsec }] ++
        frameEvents fmt (joinPath o (basename p ++ "_frames")) 0
          (VideoCapture s.fs p).toRead ++
        [Event.releaseCapture p] := by
  rw [process_video]
  simp only [habs, if_true, hnotdone, Bool.false_eq_true, if_false]
  set FD := joinPath o (basename p ++ "_frames") with hFD
  set MF := joinPath o (basename p ++ "_metadata.json") with hMF
  set MD : MetaJson :=
    { total_frames := some (VideoCapture s.fs p).reportedFrames,
      fps := some (VideoCapture s.fs p).fps,
      duration := some (VideoCapture s.fs p).posMsec } with hMD
  set M := (if s.fs.pathExists FD = true then
      { fs := s.fs, events := s.events ++ [Event.openCapture p] }
    else
      { fs := s.fs.mkdir FD,
        events := s.events ++ [Event.openCapture p] ++ [Event.madeDir FD] } : S)
    with hM
  have hMfail : M.fs.failPaths = [] := by
    rw [hM]; split <;> simp [hnofail]
  have hMev : M.events = s.events ++ [Event.openCapture p] ++
      (if s.fs.pathExists FD then [] else [Event.madeDir FD]) := by
    rw [hM]; split <;> simp_all
  simp only [hMfail, List.contains_nil, Bool.false_eq_true, if_false]
  obtain ⟨h1, h2, h3⟩ := frameLoop_ok fmt FD (VideoCapture s.fs p).toRead 0
    { fs := M.fs.writeFile MF (FileData.metaJson MD),
      events := M.events ++ [Event.wroteMetadata MF MD] } (by simpa using hMfail)
  cases hfl : frameLoop fmt FD (VideoCapture s.fs p).toRead 0
    { fs := M.fs.writeFile MF (FileData.metaJson MD),
      events := M.events ++ [Event.wroteMetadata MF MD] } with
  | mk s' r =>
    rw [hfl] at h1 h2
    cases r with
    | error e => exact absurd h1 (by simp)
    | ok u =>
      refine ⟨rfl, ?_⟩
      simp only at h2
      simp [h2, hMev, List.append_assoc]

/-! ### Claim theorems -/

/-- **C1.** For every video with `N` decodable frames, processing it
(`process_video`, when not already extracted and with all writes
succeeding) creates exactly `N` image files in the frames directory: the
run succeeds and its frame-write trace is exactly
`frame_0 … frame_{N-1}` — no gaps, each ordinal index written exactly once,
strictly increasing by 1 in decode order (frame `i` is written before
frame `i+1`). -/
theorem process_video_creates_all_frames (i o fmt p : String) (s : S) (v : Video)
    (habs : isAbs p = true)
    (hnotdone : frames_already_extracted o fmt s.fs p = false)
    (hvid : s.fs.lookup p = some (Node.file (FileData.video v)))
    (hnofail : s.fs.failPaths = []) :
    (process_video i o fmt p s).2 = Except.ok () ∧
    frameWrites (process_video i o fmt p s).1.events =
      frameWrites s.events ++
        (List.range v.frames.length).map (fun j =>
          (frameFile (joinPath o (basename p ++ "_frames")) fmt j, j)) := by
  obtain ⟨h1, h2⟩ := process_video_run i o fmt p s habs hnotdone hnofail
  refine ⟨h1, ?_⟩
  rw [h2]
  have hcap : VideoCapture s.fs p =
      { opened := true, reportedFrames := v.reportedFrames, fps := v.fps,
        posMsec := 0, toRead := v.frames } := by
    rw [VideoCapture, hvid]
  rw [hcap]
  by_cases hpf : s.fs.pathExists (joinPath o (basename p ++ "_frames")) = true <;>
    simp [hpf]

/-- The 2-frame source video of the C1 witness state. -/
def vW1 : Video :=
  { frames := [{ tag := 0 }, { tag := 1 }], reportedFrames := 2, fps := 30,
    durationMs := 66 }

/-- The C1 witness state: a fresh input directory holding one video. -/
def sW1 : S :=
  { fs := { entries := [("/in", Node.dir),
                        ("/in/a.mov", Node.file (FileData.video vW1))],
            failPaths := [] },
    events := [] }

/-- Witness for C1: both frames of the concrete 2-frame video are written,
as `frame_0.jpg` then `frame_1.jpg`. -/
theorem process_video_creates_all_frames_witness :
    (process_video "/in" "/out" "jpg" "/in/a.mov" sW1).2 = Except.ok () ∧
    frameWrites (process_video "/in" "/out" "jpg" "/in/a.mov" sW1).1.events =
      frameWrites sW1.events ++
        (List.range vW1.frames.length).map (fun j =>
          (frameFile (joinPath "/out" (basename "/in/a.mov" ++ "_frames")) "jpg" j,
           j)) :=
  process_video_creates_all_frames "/in" "/out" "jpg" "/in/a.mov" sW1 vW1
    (by decide) (by decide) (by decide) (by decide)

/-- **C7.** When the video stream fails to open (the path does not name a
decodable video), `process_video` does not crash: the capture reports 0 for
every attribute, a metadata file with zero values is still written, and the
frame loop writes no frame files — a degenerate zero-valued output, not an
exception. -/
theorem open_failure_degenerate (i o fmt p : String) (s : S)
    (habs : isAbs p = true)
    (hnotvid : isVideoFile (s.fs.lookup p) = false)
    (hnotdone : frames_already_extracted o fmt s.fs p = false)
    (hnofail : s.fs.failPaths = []) :
    (process_video i o fmt p s).2 = Except.ok () ∧
    (process_video i o fmt p s).1.fs.lookup
        (joinPath o (basename p ++ "_metadata.json")) =
      some (Node.file (FileData.metaJson
        { total_frames := some 0, fps := some 0, duration := some 0 })) ∧
    frameWrites (process_video i o fmt p s).1.events = frameWrites s.events := by
  have hcap : VideoCapture s.fs p =
      { opened := false, reportedFrames := 0, fps := 0, posMsec := 0,
        toRead := [] } := by
    rw [VideoCapture]
    cases hl : s.fs.lookup p with
    | none => rfl
    | some n =>
      rw [hl] at hnotvid
      cases n with
      | dir => rfl
      | file d =>
        cases d with
        | video v => exact absurd hnotvid (by simp [isVideoFile])
        | image f => rfl
        | metaJson m => rfl
        | corrupt => rfl
  rw [process_video]
  simp only [habs, if_true, hnotdone, Bool.false_eq_true, if_false, hcap]
  by_cases hpf : s.fs.pathExists (joinPath o (basename p ++ "_frames")) = true <;>
    simp [hpf, hnofail, frameLoop]

/-- The corrupt input file of the C7 witness state. -/
def sW7 : S :=
  { fs := { entries := [("/in", Node.dir),
                        ("/in/c.mov", Node.file FileData.corrupt)],
            failPaths := [] },
    events := [] }

/-- Witness for C7: on a concrete non-decodable file the job completes with
a zero-valued metadata sidecar and no frame files. -/
theorem open_failure_degenerate_witness :
    (process_video "/in" "/out" "jpg" "/in/c.mov" sW7).2 = Except.ok () ∧
    (process_video "/in" "/out" "jpg" "/in/c.mov" sW7).1.fs.lookup
        (joinPath "/out" (basename "/in/c.mov" ++ "_metadata.json")) =
      some (Node.file (FileData.metaJson
        { total_frames := some 0, fps := some 0, duration := some 0 })) ∧
    frameWrites (process_video "/in" "/out" "jpg" "/in/c.mov" sW7).1.events =
      frameWrites sW7.events :=
  open_failure_degenerate "/in" "/out" "jpg" "/in/c.mov" sW7
    (by decide) (by decide) (by decide) (by decide)

/-- Counterexample to **C9** as stated: a complete, successful extraction
run (frames were written) persists the metadata exactly once — there is no
second, post-extraction write. -/
theorem metadata_not_written_twice :
    (process_video "/in" "/out" "jpg" "/in/a.mov" sW1).2 = Except.ok () ∧
    frameWrites (process_video "/in" "/out" "jpg" "/in/a.mov" sW1).1.events ≠ [] ∧
    (metaWrites (process_video "/in" "/out" "jpg" "/in/a.mov" sW1).1.events).length
      = 1 := by decide

/-- **C9 (amended).** For every processed video, `VideoMetadata` is
persisted exactly once: a single metadata write, which occurs before any
frame is decoded and written; no final post-extraction copy is written. -/
theorem metadata_written_once_before_frames (i o fmt p : String) (s : S)
    (habs : isAbs p = true)
    (hnotdone : frames_already_extracted o fmt s.fs p = false)
    (hnofail : s.fs.failPaths = []) :
    (process_video i o fmt p s).2 = Except.ok () ∧
    metaWrites (process_video i o fmt p s).1.events =
      metaWrites s.events ++
        [(joinPath o (basename p ++ "_metadata.json"),
          { total_frames := some (VideoCapture s.fs p).reportedFrames,
            fps := some (VideoCapture s.fs p).fps,
            duration := some (VideoCapture s.fs p).posMsec })] ∧
    frameWrites (List.takeWhile (fun e => !(isMetaWrite e))
      (((process_video i o fmt p s).1.events).drop s.events.length)) = [] := by
  obtain ⟨h1, h2⟩ := process_video_run i o fmt p s habs hnotdone hnofail
  refine ⟨h1, ?_, ?_⟩
  · rw [h2]
    by_cases hpf : s.fs.pathExists (joinPath o (basename p ++ "_frames")) = true <;>
      simp [hpf]
  · rw [h2]
    simp only [List.append_assoc]
    rw [List.drop_left]
    by_cases hpf : s.fs.pathExists (joinPath o (basename p ++ "_frames")) = true <;>
      simp [hpf, List.takeWhile_cons, isMetaWrite]

/-- Witness for C9 (amended): on the concrete 2-frame video the single
metadata write carries the capture's attributes and precedes both frame
writes. -/
theorem metadata_written_once_before_frames_witness :
    (process_video "/in" "/out" "jpg" "/in/a.mov" sW1).2 = Except.ok () ∧
    metaWrites (process_video "/in" "/out" "jpg" "/in/a.mov" sW1).1.events =
      metaWrites sW1.events ++
        [(joinPath "/out" (basename "/in/a.mov" ++ "_metadata.json"),
          { total_frames := some (VideoCapture sW1.fs "/in/a.mov").reportedFrames,
            fps := some (VideoCapture sW1.fs "/in/a.mov").fps,
            duration := some (VideoCapture sW1.fs "/in/a.mov").posMsec })] ∧
    frameWrites (List.takeWhile (fun e => !(isMetaWrite e))
      (((process_video "/in" "/out" "jpg" "/in/a.mov" sW1).1.events).drop
        sW1.events.length)) = [] :=
  metadata_written_once_before_frames "/in" "/out" "jpg" "/in/a.mov" sW1
    (by decide) (by decide) (by decide)

/-- **C10.** The `use_multithreading` configuration flag has no effect on
behavior: for every input folder, output folder, image format and starting
state, running `extract_frames_and_metadata` with the flag set yields
exactly the same final state (filesystem and full event trace) and the same
outcome as running it with the flag cleared — processing is always
sequential, the flag is stored by `__init__` but never read. -/
theorem use_multithreading_no_effect (i o fmt : String) (s : S) :
    extract_frames_and_metadata
        { input_folder := i, output_folder := o,
          use_multithreading := true, image_format := fmt } s =
      extract_frames_and_metadata
        { input_folder := i, output_folder := o,
          use_multithreading := false, image_format := fmt } s := rfl

/-- **C4.** Transcoding is idempotent: for every source video path, if the
derived transcoded output path already exists, `transcode_video` returns
that path with the state (filesystem and events) unchanged — so the external
encoder is not invoked; and calling it twice with the same input from a
state where the source is a decodable video and the output path is writable
yields the same output path both times, with the second call leaving the
first call's state completely unchanged (hence no second ffmpeg run). -/
theorem transcode_video_idempotent (o mov : String) (s : S) (v : Video)
    (hsrc : s.fs.lookup mov = some (Node.file (FileData.video v)))
    (hok : s.fs.failPaths.contains (transcodedPath o mov) = false) :
    (∀ s₀ : S, s₀.fs.pathExists (transcodedPath o mov) = true →
      transcode_video o mov s₀ = (s₀, Except.ok (transcodedPath o mov))) ∧
    (transcode_video o mov s).2 = Except.ok (transcodedPath o mov) ∧
    transcode_video o mov (transcode_video o mov s).1 =
      ((transcode_video o mov s).1, Except.ok (transcodedPath o mov)) := by
  constructor
  · intro s₀ h
    simp [transcode_video, h]
  · by_cases hex : s.fs.pathExists (transcodedPath o mov) = true
    · simp [transcode_video, hex]
    · simp only [Bool.not_eq_true] at hex
      have hmem : transcodedPath o mov ∉ s.fs.failPaths := by simpa using hok
      constructor
      · simp [transcode_video, hex, hsrc, hmem]
      · simp [transcode_video, hex, hsrc, hmem]

/-- Source video used by the C4 witness. -/
def vW4 : Video :=
  { frames := [{ tag := 0 }], reportedFrames := 1, fps := 30, durationMs := 100 }

/-- Starting state of the C4 witness: one decodable source, empty output. -/
def sW4 : S :=
  { fs := { entries := [("/in", Node.dir),
                        ("/in/a.mov", Node.file (FileData.video vW4))],
            failPaths := [] },
    events := [] }

/-- Witness for C4: on a concrete state the second call returns the same
path and leaves the first call's state untouched. -/
theorem transcode_video_idempotent_witness :
    (transcode_video "/out" "/in/a.mov" sW4).2 =
      Except.ok (transcodedPath "/out" "/in/a.mov") ∧
    transcode_video "/out" "/in/a.mov" (transcode_video "/out" "/in/a.mov" sW4).1 =
      ((transcode_video "/out" "/in/a.mov" sW4).1,
       Except.ok (transcodedPath "/out" "/in/a.mov")) :=
  (transcode_video_idempotent "/out" "/in/a.mov" sW4 vW4 (by rfl) (by rfl)).2

/-- **C5.** Re-running extraction on an already-complete video is a no-op:
when the Completion Checker answers true for the resolved video path,
`process_video` returns with the state bit-for-bit unchanged (so the stream
is never opened and no frame or metadata file is written — no events are
appended), and when the transcoded output already exists `transcode_video`
likewise returns its path without touching the state (the external encoder
is not re-run). -/
theorem rerun_is_noop (i o fmt mov src : String) (s : S)
    (hdone : frames_already_extracted o fmt s.fs
      (if isAbs mov then mov else joinPath i mov) = true)
    (htrans : s.fs.pathExists (transcodedPath o src) = true) :
    process_video i o fmt mov s = (s, Except.ok ()) ∧
    transcode_video o src s = (s, Except.ok (transcodedPath o src)) := by
  constructor
  · simp [process_video, hdone]
  · simp [transcode_video, htrans]

/-- Post-first-run state used by the C5 witness: the transcoded video, its
frames directory holding the single extracted frame, and the metadata
sidecar recording one total frame. -/
def fsW5 : FS :=
  { entries :=
      [("/out/v_transcoded.mp4", Node.file (FileData.video
          { frames := [{ tag := 7 }], reportedFrames := 1, fps := 25, durationMs := 40 })),
       ("/out/v_transcoded.mp4_frames", Node.dir),
       ("/out/v_transcoded.mp4_frames/frame_0.jpg", Node.file (FileData.image { tag := 7 })),
       ("/out/v_transcoded.mp4_metadata.json", Node.file (FileData.metaJson
          { total_frames := some 1, fps := some 25, duration := some 0 }))],
    failPaths := [] }

/-- The C5 witness state wrapping `fsW5`. -/
def sW5 : S := { fs := fsW5, events := [] }

/-- Witness for C5: re-running on the concrete completed state changes
nothing. -/
theorem rerun_is_noop_witness :
    process_video "/in" "/out" "jpg" "/out/v_transcoded.mp4" sW5 = (sW5, Except.ok ()) ∧
    transcode_video "/out" "/in/v.mov" sW5 =
      (sW5, Except.ok (transcodedPath "/out" "/in/v.mov")) :=
  rerun_is_noop "/in" "/out" "jpg" "/out/v_transcoded.mp4" "/in/v.mov" sW5
    (by decide) (by decide)

/-- The 2-frame video of the C6 failing input. -/
def vC6 : Video :=
  { frames := [{ tag := 0 }, { tag := 1 }], reportedFrames := 2, fps := 30,
    durationMs := 66 }

/-- The C6 failing input: a decodable 2-frame video whose second frame file
cannot be written (e.g. the disk fills mid-run). -/
def sC6 : S :=
  { fs := { entries := [("/in", Node.dir),
                        ("/in/bad.mov", Node.file (FileData.video vC6))],
            failPaths := ["/out/bad.mov_frames/frame_1.jpg"] },
    events := [] }

/-- **C6** is violated by the code: when a frame write fails partway
through (here `frame_1`, after `frame_0` succeeded), the raised error
propagates out of `process_video` past `cap.release()` — the capture was
opened but is never released, because the source wraps no try/finally
around the read loop.  The claim (and the spec's "scoped acquisition with
guaranteed release") demands the release on this path. -/
theorem release_skipped_on_frame_write_failure :
    (process_video "/in" "/out" "jpg" "/in/bad.mov" sC6).2 =
      Except.error (Err.osError "/out/bad.mov_frames/frame_1.jpg") ∧
    (process_video "/in" "/out" "jpg" "/in/bad.mov" sC6).1.events.contains
      (Event.openCapture "/in/bad.mov") = true ∧
    (process_video "/in" "/out" "jpg" "/in/bad.mov" sC6).1.events.contains
      (Event.releaseCapture "/in/bad.mov") = false ∧
    frameWrites (process_video "/in" "/out" "jpg" "/in/bad.mov" sC6).1.events =
      [("/out/bad.mov_frames/frame_0.jpg", 0)] := by decide

/-- The 10-frame, 30 fps, 2000 ms scenario video `clip.mov` of C2. -/
def clipVideo : Video :=
  { frames := (List.range 10).map Frame.mk, reportedFrames := 10, fps := 30,
    durationMs := 2000 }

/-- The C2 scenario: an input directory containing exactly `clip.mov`. -/
def scenarioS : S :=
  { fs := { entries := [("/in", Node.dir),
                        ("/in/clip.mov", Node.file (FileData.video clipVideo))],
            failPaths := [] },
    events := [] }

/-- The C2 scenario configuration. -/
def scenarioCfg : Cfg :=
  { input_folder := "/in", output_folder := "/out",
    use_multithreading := false, image_format := "jpg" }

/-- Counterexample to **C2** as stated: the run succeeds but creates
neither `clip.mov_metadata.json` nor `clip.mov_frames/` — `process_video`
is invoked on the transcoded copy, so every output name uses the
`clip_transcoded.mp4` stem. -/
theorem scenario_claimed_outputs_absent :
    (extract_frames_and_metadata scenarioCfg scenarioS).2 = Except.ok () ∧
    (extract_frames_and_metadata scenarioCfg scenarioS).1.fs.lookup
      "/out/clip.mov_metadata.json" = none ∧
    (extract_frames_and_metadata scenarioCfg scenarioS).1.fs.isDir
      "/out/clip.mov_frames" = false ∧
    (extract_frames_and_metadata scenarioCfg scenarioS).1.fs.lookup
      "/out/clip.mov_frames/frame_0.jpg" = none := by decide

/-- **C2 (amended).** On the scenario input the pipeline writes the
transcoded copy `clip_transcoded.mp4` and then produces
`clip_transcoded.mp4_frames/frame_0.jpg` … `frame_9.jpg` (10 files) and
`clip_transcoded.mp4_metadata.json` with content
`{"total_frames":10,"fps":30,"duration":0}` — the `duration` field records
the capture position at open time (0), not the 2000 ms duration. -/
theorem scenario_actual_outputs :
    (extract_frames_and_metadata scenarioCfg scenarioS).2 = Except.ok () ∧
    (extract_frames_and_metadata scenarioCfg scenarioS).1.fs.lookup
        "/out/clip_transcoded.mp4_metadata.json" =
      some (Node.file (FileData.metaJson
        { total_frames := some 10, fps := some 30, duration := some 0 })) ∧
    frameWrites (extract_frames_and_metadata scenarioCfg scenarioS).1.events =
      (List.range 10).map (fun j =>
        (frameFile "/out/clip_transcoded.mp4_frames" "jpg" j, j)) ∧
    (extract_frames_and_metadata scenarioCfg scenarioS).1.fs.globCount
      "/out/clip_transcoded.mp4_frames" "jpg" = 10 ∧
    (extract_frames_and_metadata scenarioCfg scenarioS).1.fs.lookup
      "/out/clip_transcoded.mp4" = some (Node.file (FileData.video clipVideo)) := by
  decide

/-- A state whose metadata file parses as JSON but lacks the
`total_frames` field, next to an empty frames directory. -/
def fsC3 : FS :=
  { entries := [("/out/x.mov_frames", Node.dir),
                ("/out/x.mov_metadata.json",
                 Node.file (FileData.metaJson
                   { total_frames := none, fps := none, duration := none }))],
    failPaths := [] }

/-- Counterexample to **C3** as stated: with the `total_frames` field
missing from otherwise valid metadata JSON, the checker answers true — the
`dict.get` default 0 matches the empty frames directory — instead of the
false the claim requires for a missing field. -/
theorem checker_true_despite_missing_total_frames :
    frames_already_extracted "/out" "jpg" fsC3 "/in/x.mov" = true := by decide

/-- **C3 (amended).** The Completion Checker returns false if the frames
directory or the metadata file is absent; a filesystem read error or a
metadata file that does not parse as JSON also yields false; and when the
metadata parses, it returns true iff the count of image-format-suffixed
entries equals `total_frames` read with a default of 0 — so a *missing*
`total_frames` field is treated as expecting zero frames, not answered
false unconditionally. -/
theorem frames_already_extracted_characterization (o fmt : String) (fs : FS)
    (vp : String) :
    (frames_already_extracted o fmt fs vp = true →
      fs.isDir (joinPath o (basename vp ++ "_frames")) = true ∧
      fs.isFile (joinPath o (basename vp ++ "_metadata.json")) = true) ∧
    (fs.failPaths.contains (joinPath o (basename vp ++ "_metadata.json")) = true →
      frames_already_extracted o fmt fs vp = false) ∧
    (fs.lookup (joinPath o (basename vp ++ "_metadata.json")) =
        some (Node.file FileData.corrupt) →
      frames_already_extracted o fmt fs vp = false) ∧
    (∀ m : MetaJson,
      fs.isDir (joinPath o (basename vp ++ "_frames")) = true →
      fs.lookup (joinPath o (basename vp ++ "_metadata.json")) =
        some (Node.file (FileData.metaJson m)) →
      fs.failPaths.contains (joinPath o (basename vp ++ "_metadata.json")) = false →
      (frames_already_extracted o fmt fs vp = true ↔
        Int.ofNat (fs.globCount (joinPath o (basename vp ++ "_frames")) fmt) =
          m.total_frames.getD 0)) := by
  refine ⟨?_, ?_, ?_, ?_⟩
  · intro h
    rw [frames_already_extracted] at h
    constructor
    · by_contra hd
      have hd' : fs.isDir (joinPath o (basename vp ++ "_frames")) = false := by
        simpa using hd
      rw [hd'] at h
      simp at h
    · by_contra hf
      have hf' : fs.isFile (joinPath o (basename vp ++ "_metadata.json")) = false := by
        simpa using hf
      rw [hf'] at h
      simp at h
  · intro h
    have h' : joinPath o (basename vp ++ "_metadata.json") ∈ fs.failPaths := by
      simpa using h
    rw [frames_already_extracted]
    by_cases hd : fs.isDir (joinPath o (basename vp ++ "_frames")) = true
    · by_cases hf : fs.isFile (joinPath o (basename vp ++ "_metadata.json")) = true
      · simp [hd, hf, h']
      · have hf' : fs.isFile (joinPath o (basename vp ++ "_metadata.json")) = false := by
          simpa using hf
        simp [hf']
    · have hd' : fs.isDir (joinPath o (basename vp ++ "_frames")) = false := by
        simpa using hd
      simp [hd']
  · intro h
    rw [frames_already_extracted]
    by_cases hc : fs.failPaths.contains
        (joinPath o (basename vp ++ "_metadata.json")) = true
    · have h' : joinPath o (basename vp ++ "_metadata.json") ∈ fs.failPaths := by
        simpa using hc
      simp [h']
    · have hc' : joinPath o (basename vp ++ "_metadata.json") ∉ fs.failPaths := by
        simpa using hc
      simp [FS.isFile, h, hc']
  · intro m hd hl hc
    rw [frames_already_extracted]
    have hf : fs.isFile (joinPath o (basename vp ++ "_metadata.json")) = true := by
      simp [FS.isFile, hl]
    have hc' : joinPath o (basename vp ++ "_metadata.json") ∉ fs.failPaths := by
      simpa using hc
    simp [hd, hf, hc', hl]

/-- State for the C3 witness: one extracted frame and matching metadata. -/
def fsW3 : FS :=
  { entries := [("/out/x.mov_frames", Node.dir),
                ("/out/x.mov_frames/frame_0.jpg",
                 Node.file (FileData.image { tag := 0 })),
                ("/out/x.mov_metadata.json",
                 Node.file (FileData.metaJson
                   { total_frames := some 1, fps := some 30, duration := some 0 }))],
    failPaths := [] }

/-- Witness for C3 (amended): on a concrete state with one frame file and
`total_frames = 1` the characterization yields a true answer. -/
theorem frames_already_extracted_characterization_witness :
    frames_already_extracted "/out" "jpg" fsW3 "/in/x.mov" = true :=
  ((frames_already_extracted_characterization "/out" "jpg" fsW3 "/in/x.mov").2.2.2
    { total_frames := some 1, fps := some 30, duration := some 0 }
    (by decide) (by decide) (by decide)).2 (by decide)

/-- `transcode_video` never writes a frame: the state it returns (on
success or failure) has the same frame-write trace it was given. -/
theorem frameWrites_transcode_video (o mov : String) (s : S) :
    frameWrites ((transcode_video o mov s).1).events = frameWrites s.events := by
  rw [transcode_video]
  split
  · rfl
  · split
    · split
      · simp
      · simp
    · simp

/-- The transcode loop never writes a frame, whatever its outcome. -/
theorem frameWrites_transcodeAll (o i : String) (files : List String) :
    ∀ s : S, frameWrites ((transcodeAll o i files s).1).events =
      frameWrites s.events := by
  induction files with
  | nil => intro s; rfl
  | cons f t ih =>
      intro s
      rw [transcodeAll]
      have h1 := frameWrites_transcode_video o (joinPath i f) s
      cases htv : transcode_video o (joinPath i f) s with
      | mk s' r =>
        rw [htv] at h1
        cases r with
        | error e => simpa using h1
        | ok p =>
          have h2 := ih s'
          cases hta : transcodeAll o i t s' with
          | mk s'' r2 =>
            rw [hta] at h2
            cases r2 <;> simp [hta, h1, h2]

/-- Creating the output folder appends no frame write. -/
theorem frameWrites_ensureOutputFolder (o : String) (s : S) :
    frameWrites (ensureOutputFolder o s).events = frameWrites s.events := by
  rw [ensureOutputFolder]
  split
  · rfl
  · simp

/-- **C8 (amended).** Job failures are *not* isolated: when any job's
external transcoder fails (raising `CalledProcessError` out of
`subprocess.run(check=True)`), the error propagates out of
`extract_frames_and_metadata` and the batch stops there — in particular no
video of the batch is ever frame-processed, because the failing transcode
loop runs before any `process_video` call. -/
theorem transcode_failure_aborts_batch (cfg : Cfg) (s : S) (e : Err) (s₁ : S)
    (h : transcodeAll cfg.output_folder cfg.input_folder
        (listVideoFiles (ensureOutputFolder cfg.output_folder s).fs cfg.input_folder)
        (ensureOutputFolder cfg.output_folder s) = (s₁, Except.error e)) :
    extract_frames_and_metadata cfg s = (s₁, Except.error e) ∧
    frameWrites s₁.events = frameWrites s.events := by
  constructor
  · simp only [extract_frames_and_metadata]
    rw [h]
  · have h1 := frameWrites_transcodeAll cfg.output_folder cfg.input_folder
      (listVideoFiles (ensureOutputFolder cfg.output_folder s).fs cfg.input_folder)
      (ensureOutputFolder cfg.output_folder s)
    rw [h] at h1
    simp only at h1
    rw [h1, frameWrites_ensureOutputFolder]

/-- The C8 batch state: `a.mov` is corrupt (its transcode will fail) and
`b.mov` is a healthy decodable video listed after it. -/
def sW8 : S :=
  { fs := { entries := [("/in", Node.dir),
                        ("/in/a.mov", Node.file FileData.corrupt),
                        ("/in/b.mov", Node.file (FileData.video vW1))],
            failPaths := [] },
    events := [] }

/-- The C8 batch configuration. -/
def cfgW8 : Cfg :=
  { input_folder := "/in", output_folder := "/out",
    use_multithreading := false, image_format := "jpg" }

/-- Counterexample to **C8** as stated: the first job's transcoder failure
aborts the whole batch — the sibling `b.mov` is neither transcoded nor
processed (its transcoded file is absent and not a single frame or
metadata file was written for any video). -/
theorem sibling_jobs_not_processed_after_failure :
    (extract_frames_and_metadata cfgW8 sW8).2 =
      Except.error Err.calledProcessError ∧
    (extract_frames_and_metadata cfgW8 sW8).1.fs.pathExists
      "/out/b_transcoded.mp4" = false ∧
    frameWrites (extract_frames_and_metadata cfgW8 sW8).1.events = [] ∧
    metaWrites (extract_frames_and_metadata cfgW8 sW8).1.events = [] := by decide

/-- The state at which the C8 witness batch stops. -/
def sW8t : S :=
  (transcodeAll "/out" "/in"
    (listVideoFiles (ensureOutputFolder "/out" sW8).fs "/in")
    (ensureOutputFolder "/out" sW8)).1

/-- Witness for C8 (amended): on the concrete two-video batch the
transcoder failure propagates and no frame was written. -/
theorem transcode_failure_aborts_batch_witness :
    extract_frames_and_metadata cfgW8 sW8 =
      (sW8t, Except.error Err.calledProcessError) ∧
    frameWrites sW8t.events = frameWrites sW8.events :=
  transcode_failure_aborts_batch cfgW8 sW8 Err.calledProcessError sW8t (by decide)

end AglFrameExtractor
